import Mathlib

/-!
Verification development for the products microservice.

The repository is a NestJS catalog microservice backed by Prisma.  We give a
shallow embedding of the entities (Product, Question, QuestionProduct, Tag),
of the database state (`Store`, lists of rows in table order), and of the
service methods the claims are about:

* `ProductsService.expandQuestionsRecursively` / `findOne` / `findAll` /
  `update` / `validateProducts`  (src/src/products/products.service.ts),
* `ProductQuestionService.findByProductId` / `removeByProductId` /
  `bulkCreate` / `replaceByProductId`  (src/unnamed/part_011),
* `QuestionsService.searchByName`  (src/unnamed/part_001),
* `TagsService.findOne` / `update`  (src/src/tags/tags.service.ts).

Conventions of the embedding:

* A Prisma `findMany` without `orderBy` returns the rows in table (list)
  order; `orderBy` is modelled by an executable insertion sort.
* `findUnique`/`findFirst` is `List.find?` (ids are unique in the real
  database; where a proof needs that primary-key invariant it is taken as an
  explicit hypothesis).
* Promises/`await` disappear (each handler is a sequential state
  transformer); a thrown `RpcException {status, message}` is `Except.error`
  of an `RpcError`.
* The unbounded recursion of `expandQuestionsRecursively` is embedded with
  an explicit fuel parameter: `none` means the recursion did not finish
  within the given fuel, so "the call terminates" is "some fuel returns
  `some`".
* Database-generated row ids (cuid defaults of `createMany`) are passed in
  as an explicit list of fresh ids.
* JavaScript's `x || y` on a possibly-absent number (falsy on `0` and
  `undefined`) is `jsOr`; on strings (falsy on `""`) it is `jsOrStr`.
-/

/-- Prisma enum ProductStatus. -/
inductive ProductStatus where
  | ACTIVE
  | INACTIVE
  | OUT_OF_STOCK
deriving DecidableEq, Repr

/-- Prisma enum QuestionProductType: the tag on the join-table edge. -/
inductive QuestionProductType where
  | QUESTION
  | ANSWER
deriving DecidableEq, Repr

/-- Prisma enum QuestionType. -/
inductive QuestionType where
  | SINGLE_CHOICE
  | MULTIPLE_CHOICE
  | TEXT
  | NUMBER
  | BOOLEAN
deriving DecidableEq, Repr

/-- A Product row.  `deletedAt` is the soft-delete timestamp (null = alive). -/
structure Product where
  id : String
  sku : String
  name : String
  description : String
  basePrice : Int
  status : ProductStatus
  deletedAt : Option Nat
  deletedBy : Option String
deriving DecidableEq, Repr

/-- A Question row. -/
structure Question where
  id : String
  name : String
  required : Bool
  min : Option Int
  max : Option Int
  questionType : QuestionType
  isActive : Bool
  deletedAt : Option Nat
  deletedBy : Option String
deriving DecidableEq, Repr

/-- A QuestionProduct join row: `itemType = QUESTION` attaches Question
`questionId` to Product `productId`; `itemType = ANSWER` attaches Product
`productId` as an answer of Question `questionId`. -/
structure QuestionProduct where
  id : String
  questionId : String
  productId : String
  position : Nat
  itemType : QuestionProductType
deriving DecidableEq, Repr

/-- A Tag row. -/
structure Tag where
  id : String
  name : String
  deletedAt : Option Nat
  deletedBy : Option String
deriving DecidableEq, Repr

/-- The database state: each table as a list of rows in table order. -/
structure Store where
  products : List Product
  questions : List Question
  questionProducts : List QuestionProduct
  tags : List Tag
deriving Repr

/-- A structured error as carried by `RpcException {status, message}`. -/
structure RpcError where
  status : Nat
  message : String
deriving DecidableEq, Repr

/-- HttpStatus.NOT_FOUND. -/
def NOT_FOUND : Nat := 404

/-- HttpStatus.BAD_REQUEST. -/
def BAD_REQUEST : Nat := 400

/-- HttpStatus.INTERNAL_SERVER_ERROR. -/
def INTERNAL_SERVER_ERROR : Nat := 500

/-- JavaScript `x || d` for a possibly-undefined number `x` (0 and undefined
are falsy). -/
def jsOr (x : Option Nat) (d : Nat) : Nat :=
  match x with
  | none => d
  | some n => if n = 0 then d else n

/-- JavaScript `s || d` for a string `s` (only "" is falsy). -/
def jsOrStr (s d : String) : String :=
  if s = "" then d else s

/-- `Promise.all(xs.map f)` over fallible computations: all succeed or the
whole list fails.  (Executable counterpart of `List.mapM` for `Option`.) -/
def mapOption (f : α → Option β) : List α → Option (List β)
  | [] => some []
  | x :: xs =>
    match f x with
    | none => none
    | some y =>
      match mapOption f xs with
      | none => none
      | some ys => some (y :: ys)

/-- Insert for the insertion sort modelling Prisma `orderBy`. -/
def insertLe (le : α → α → Bool) (x : α) : List α → List α
  | [] => [x]
  | y :: ys => if le x y then x :: y :: ys else y :: insertLe le x ys

/-- Executable stable sort modelling Prisma `orderBy ... asc`. -/
def sortLe (le : α → α → Bool) : List α → List α
  | [] => []
  | x :: xs => insertLe le x (sortLe le xs)

/-- Prisma relation resolution `question` on a QuestionProduct row:
the Question row with the given id. -/
def lookupQuestion (s : Store) (qid : String) : Option Question :=
  s.questions.find? (fun q => q.id == qid)

/-- Prisma relation resolution `product` on a QuestionProduct row:
the Product row with the given id. -/
def lookupProduct (s : Store) (pid : String) : Option Product :=
  s.products.find? (fun p => p.id == pid)

/-- The value returned by `expandQuestionsRecursively`: the entity's own
fields together with the attached `questions` array, each entry being the
question's fields (`cleanQuestion`, relation stripped) paired with its
recursively expanded `answers`. -/
inductive ExpandedProduct where
  | node : Product → List (Question × List ExpandedProduct) → ExpandedProduct

/-- The product fields of an expansion result. -/
def ExpandedProduct.base : ExpandedProduct → Product
  | .node p _ => p

/-- The `questions` array of an expansion result. -/
def ExpandedProduct.questionEntries :
    ExpandedProduct → List (Question × List ExpandedProduct)
  | .node _ qs => qs

/-- The query of expandQuestionsRecursively: QuestionProduct rows with
`productId = entity.id` and `itemType = QUESTION` — no `orderBy`, no
`deletedAt`/`isActive` condition. -/
def questionRows (s : Store) (pid : String) : List QuestionProduct :=
  s.questionProducts.filter
    (fun qp => qp.productId == pid && qp.itemType == QuestionProductType.QUESTION)

/-- The nested include of expandQuestionsRecursively: the question's
QuestionProduct rows with `itemType = ANSWER` — again with no soft-delete
condition. -/
def answerRows (s : Store) (qid : String) : List QuestionProduct :=
  s.questionProducts.filter
    (fun a => a.questionId == qid && a.itemType == QuestionProductType.ANSWER)

/-- ProductsService.expandQuestionsRecursively
(src/src/products/products.service.ts lines 75-112), with explicit fuel.

For the current entity it queries `questionRows`, resolves each row's
`question` relation together with that question's `answerRows` and their
`product` relations, recursively expands every answer product with the
remaining fuel, and returns the entity augmented with the assembled
`questions` (each entry the question paired with its expanded answers). -/
def expandQuestionsRecursively (s : Store) :
    Nat → Product → Option ExpandedProduct
  | 0, _ => none
  | Nat.succ fuel, entity =>
    (mapOption (fun qp =>
        (lookupQuestion s qp.questionId).bind (fun question =>
          (mapOption (fun ansQP => lookupProduct s ansQP.productId)
              (answerRows s question.id)).bind
            (fun answers =>
              (mapOption (fun answer => expandQuestionsRecursively s fuel answer)
                  answers).map
                (fun expandedAnswers => (question, expandedAnswers)))))
      (questionRows s entity.id)).map
      (fun questions => ExpandedProduct.node entity questions)

/-- One `questions` entry of the expansion, split out for the proofs
(definitional unfolding of the map body of `expandQuestionsRecursively`). -/
def expandEntry (s : Store) (fuel : Nat) (qp : QuestionProduct) :
    Option (Question × List ExpandedProduct) :=
  (lookupQuestion s qp.questionId).bind (fun question =>
    (mapOption (fun ansQP => lookupProduct s ansQP.productId)
        (answerRows s question.id)).bind
      (fun answers =>
        (mapOption (fun answer => expandQuestionsRecursively s fuel answer)
            answers).map
          (fun expandedAnswers => (question, expandedAnswers))))

theorem expand_zero (s : Store) (p : Product) :
    expandQuestionsRecursively s 0 p = none := rfl

theorem expand_succ (s : Store) (fuel : Nat) (entity : Product) :
    expandQuestionsRecursively s (fuel + 1) entity =
      (mapOption (expandEntry s fuel) (questionRows s entity.id)).map
        (fun questions => ExpandedProduct.node entity questions) := rfl

namespace ProductsService

/-- ProductsService.findOne: `findUnique {id, deletedAt: null}`, NotFound if
absent, otherwise the recursive expansion of the product.  `none` means the
expansion did not finish within `fuel`. -/
def findOne (s : Store) (fuel : Nat) (id : String) :
    Option (Except RpcError ExpandedProduct) :=
  match s.products.find? (fun p => p.id == id && p.deletedAt == none) with
  | none =>
    some (Except.error
      ⟨NOT_FOUND, "Product with id " ++ id ++ " not found"⟩)
  | some product => (expandQuestionsRecursively s fuel product).map Except.ok

/-- Pagination metadata `{total, page, lastPage}`. -/
structure PageMeta where
  total : Nat
  page : Nat
  lastPage : Nat
deriving DecidableEq, Repr

/-- `Math.ceil(total / limit)` on naturals (limit > 0 in valid requests). -/
def ceilDiv (total limit : Nat) : Nat := (total + limit - 1) / limit

/-- ProductsService.findAll: count and page of the rows with
`status = ACTIVE` and `deletedAt = null` (no `orderBy` in this service). -/
def findAll (s : Store) (page limit : Nat) :
    List Product × PageMeta :=
  let matching := s.products.filter
    (fun p => p.status == ProductStatus.ACTIVE && p.deletedAt == none)
  let total := matching.length
  ((matching.drop ((page - 1) * limit)).take limit,
    ⟨total, page, ceilDiv total limit⟩)

/-- The patch part of UpdateProductDto (PartialType of CreateProductDto):
every field optional; the `id` member is split off by the service. -/
structure UpdateProductData where
  sku : Option String := none
  name : Option String := none
  description : Option String := none
  basePrice : Option Int := none
  status : Option ProductStatus := none
deriving DecidableEq, Repr

/-- Prisma `product.update({where: {id}, data})`: fields present in the
patch overwrite the row's fields. -/
def applyUpdate (p : Product) (d : UpdateProductData) : Product :=
  { p with
    sku := d.sku.getD p.sku
    name := d.name.getD p.name
    description := d.description.getD p.description
    basePrice := d.basePrice.getD p.basePrice
    status := d.status.getD p.status }

/-- ProductsService.update: `await this.findOne(id)` (NotFound if the id is
absent or soft-deleted; diverges with the expansion if the expansion does),
then `product.update({where: {id}})`.  Returns the updated record and the
new store. -/
def update (s : Store) (fuel : Nat) (id : String) (d : UpdateProductData) :
    Option (Except RpcError Product × Store) :=
  match s.products.find? (fun p => p.id == id && p.deletedAt == none) with
  | none =>
    some (Except.error
      ⟨NOT_FOUND, "Product with id " ++ id ++ " not found"⟩, s)
  | some p =>
    match expandQuestionsRecursively s fuel p with
    | none => none
    | some _ =>
      some (Except.ok (applyUpdate p d),
        { s with products :=
            s.products.map (fun q => if q.id == id then applyUpdate q d else q) })

/-- `Array.from(new Set(ids))`: first occurrences, in order. -/
def dedupFirst : List String → List String
  | [] => []
  | x :: xs => x :: (dedupFirst xs).filter (fun y => y ≠ x)

/-- ProductsService.validateProducts: dedups the ids, loads the products
with `id ∈ ids` (no `deletedAt` or `status` condition), and fails with
BAD_REQUEST listing the missing ids when some id matched no row. -/
def validateProducts (s : Store) (ids : List String) :
    Except RpcError (List Product) :=
  let uniqueIds := dedupFirst ids
  let products := s.products.filter (fun p => uniqueIds.contains p.id)
  if products.length ≠ uniqueIds.length then
    let foundIds := products.map (fun p => p.id)
    let missing := uniqueIds.filter (fun id => !foundIds.contains id)
    Except.error ⟨BAD_REQUEST,
      "Some products were not found: " ++ String.intercalate ", " missing⟩
  else
    Except.ok products

end ProductsService

namespace ProductQuestionService

/-- The payload of CreateProductQuestionDto without `productId`
(the bulk shape): questionId, optional position (≥ 0, may be 0), itemType. -/
structure QuestionItem where
  questionId : String
  position : Option Nat := none
  itemType : QuestionProductType
deriving DecidableEq, Repr

/-- ProductQuestionService.findByProductId (src/unnamed/part_011 lines
77-109): all QuestionProduct rows with the given productId, ordered by
`position` ascending.  (The service response omits the raw `questionId` /
`productId` columns and includes the resolved `question` relation instead;
that reshaping does not change which rows are returned, so the embedding
returns the rows themselves.) -/
def findByProductId (s : Store) (productId : String) : List QuestionProduct :=
  sortLe (fun a b => a.position ≤ b.position)
    (s.questionProducts.filter (fun qp => qp.productId == productId))

/-- Result shape of removeByProductId / bulkCreate. -/
structure BulkResult where
  message : String
  productId : String
  count : Nat
deriving DecidableEq, Repr

/-- ProductQuestionService.removeByProductId: `deleteMany {productId}`. -/
def removeByProductId (s : Store) (productId : String) : Store × BulkResult :=
  let remaining := s.questionProducts.filter (fun qp => !(qp.productId == productId))
  let count := (s.questionProducts.filter (fun qp => qp.productId == productId)).length
  ({ s with questionProducts := remaining },
    ⟨toString count ++ " product-question relationships for product: " ++
        productId ++ " were deleted successfully", productId, count⟩)

/-- The rows `createMany` inserts for bulkCreate:
`{...question, productId, position: question.position || index}`; the row
ids are database-generated, passed in as `newIds` (one per item). -/
def relationshipData (productId : String) (newIds : List String)
    (questions : List QuestionItem) : List QuestionProduct :=
  List.zipWith
    (fun rid (p : Nat × QuestionItem) =>
      { id := rid, questionId := p.2.questionId, productId := productId,
        position := jsOr p.2.position p.1, itemType := p.2.itemType })
    newIds questions.enum

/-- ProductQuestionService.bulkCreate: inserts the relationship rows in one
`createMany` (atomic: on a database error nothing is inserted and the
caught error is rethrown as `{500, error.message || ...}`).  `dbError`
injects that database failure. -/
def bulkCreate (s : Store) (productId : String) (newIds : List String)
    (questions : List QuestionItem) (dbError : Option String) :
    Except RpcError (Store × BulkResult) :=
  match dbError with
  | some m =>
    Except.error ⟨INTERNAL_SERVER_ERROR,
      jsOrStr m "Unable to bulk create product-question relationships"⟩
  | none =>
    let rows := relationshipData productId newIds questions
    Except.ok ({ s with questionProducts := s.questionProducts ++ rows },
      ⟨toString rows.length ++ " product-question relationships for product " ++
          productId ++ " have been created successfully.", productId,
        rows.length⟩)

/-- ProductQuestionService.replaceByProductId (src/unnamed/part_011 lines
335-357): removeByProductId, then bulkCreate — two independent statements,
no transaction.  A bulkCreate failure is caught and rethrown as
`{500, error.message || ...}` while the deletion stays committed. -/
def replaceByProductId (s : Store) (productId : String)
    (questions : List QuestionItem) (newIds : List String)
    (dbError : Option String) : Except RpcError BulkResult × Store :=
  let (s1, _) := removeByProductId s productId
  match bulkCreate s1 productId newIds questions dbError with
  | Except.ok (s2, r) => (Except.ok r, s2)
  | Except.error e =>
    (Except.error ⟨INTERNAL_SERVER_ERROR,
        jsOrStr e.message "Unable to replace product-question relationships"⟩,
      s1)

end ProductQuestionService

/-- Case-folding single character (`mode: 'insensitive'`). -/
def charLower (c : Char) : Char := c.toLower

/-- Leading-match test on character lists. -/
def leadsChars : List Char → List Char → Bool
  | [], _ => true
  | _ :: _, [] => false
  | a :: as, b :: bs => a == b && leadsChars as bs

/-- Substring containment on character lists. -/
def containsChars (needle : List Char) : List Char → Bool
  | [] => needle.isEmpty
  | c :: rest => leadsChars needle (c :: rest) || containsChars needle rest

/-- Prisma `name: { contains: term, mode: 'insensitive' }`. -/
def containsCI (hay needle : String) : Bool :=
  containsChars (needle.toList.map charLower) (hay.toList.map charLower)

namespace QuestionsService

/-- Paginated response shape `{list, meta}`. -/
structure QuestionPage where
  list : List Question
  total : Nat
  page : Nat
  lastPage : Nat

/-- QuestionsService.searchByName (src/unnamed/part_001 lines 232-274):
rows with `isActive: true`, `deletedAt: null` and a case-insensitive name
match, paginated and ordered by name ascending. -/
def searchByName (s : Store) (name : String) (page limit : Nat) :
    QuestionPage :=
  let matching := s.questions.filter
    (fun q => containsCI q.name name && q.isActive && q.deletedAt == none)
  let total := matching.length
  { list := ((sortLe (fun a b => a.name ≤ b.name) matching).drop
        ((page - 1) * limit)).take limit,
    total := total, page := page,
    lastPage := ProductsService.ceilDiv total limit }

end QuestionsService

namespace TagsService

/-- TagsService.findOne: `findUnique {id, deletedAt: null}`, NotFound
otherwise.  (The `products` include only shapes the response.) -/
def findOne (s : Store) (id : String) : Except RpcError Tag :=
  match s.tags.find? (fun t => t.id == id && t.deletedAt == none) with
  | none =>
    Except.error ⟨NOT_FOUND, "Tag with id " ++ id ++ " not found"⟩
  | some t => Except.ok t

/-- The patch part of UpdateTagDto. -/
structure UpdateTagData where
  name : Option String := none
deriving DecidableEq, Repr

/-- Prisma `tag.update({where: {id}, data})`. -/
def applyUpdate (t : Tag) (d : UpdateTagData) : Tag :=
  { t with name := d.name.getD t.name }

/-- TagsService.update (src/src/tags/tags.service.ts lines 115-124):
`await this.findOne(id)` throws NotFound for a missing or soft-deleted id
before `tag.update` writes anything. -/
def update (s : Store) (id : String) (d : UpdateTagData) :
    Except RpcError Tag × Store :=
  match findOne s id with
  | Except.error e => (Except.error e, s)
  | Except.ok t =>
    (Except.ok (applyUpdate t d),
      { s with tags := s.tags.map (fun u => if u.id == id then applyUpdate u d else u) })

end TagsService

/-- Demo root product. -/
def demoP1 : Product :=
  { id := "p1", sku := "S1", name := "Pizza", description := "",
    basePrice := 10, status := .ACTIVE, deletedAt := none, deletedBy := none }

/-- Demo answer product. -/
def demoP2 : Product :=
  { id := "p2", sku := "S2", name := "Extra cheese", description := "",
    basePrice := 2, status := .ACTIVE, deletedAt := none, deletedBy := none }

/-- Demo question. -/
def demoQ1 : Question :=
  { id := "q1", name := "Add a topping?", required := false,
    min := none, max := none, questionType := .SINGLE_CHOICE,
    isActive := true, deletedAt := none, deletedBy := none }

/-- QUESTION edge p1 → q1. -/
def demoE1 : QuestionProduct :=
  { id := "e1", questionId := "q1", productId := "p1", position := 0,
    itemType := .QUESTION }

/-- ANSWER edge q1 → p2. -/
def demoE2 : QuestionProduct :=
  { id := "e2", questionId := "q1", productId := "p2", position := 0,
    itemType := .ANSWER }

/-- Sanity check store: product p1 asks question q1, whose answer product p2
asks nothing. -/
def demoStore : Store :=
  { products := [demoP1, demoP2],
    questions := [demoQ1],
    questionProducts := [demoE1, demoE2],
    tags := [] }

example :
    expandQuestionsRecursively demoStore 2 demoP1 =
      some (.node demoP1 [(demoQ1, [.node demoP2 []])]) := by
  rfl

example :
    expandQuestionsRecursively demoStore 1 demoP1 = none := by
  rfl

section MapOptionLemmas

variable {α β γ : Type _}

theorem mapOption_forall2 {f : α → Option β} :
    ∀ {xs : List α} {ys : List β}, mapOption f xs = some ys →
      List.Forall₂ (fun x y => f x = some y) xs ys := by
  intro xs
  induction xs with
  | nil =>
    intro ys h
    simp only [mapOption, Option.some.injEq] at h
    subst h
    exact .nil
  | cons x xs ih =>
    intro ys h
    simp only [mapOption] at h
    cases hfx : f x with
    | none => rw [hfx] at h; exact absurd h (by simp)
    | some y =>
      rw [hfx] at h
      cases hm : mapOption f xs with
      | none => rw [hm] at h; exact absurd h (by simp)
      | some ys' =>
        rw [hm] at h
        simp only [Option.some.injEq] at h
        subst h
        exact .cons hfx (ih hm)

theorem mapOption_length {f : α → Option β} {xs : List α} {ys : List β}
    (h : mapOption f xs = some ys) : ys.length = xs.length :=
  (mapOption_forall2 h).length_eq.symm

theorem forall2_mem_left {R : α → β → Prop} {xs : List α} {ys : List β}
    (h : List.Forall₂ R xs ys) :
    ∀ {x : α}, x ∈ xs → ∃ y, R x y ∧ y ∈ ys := by
  induction h with
  | nil => intro x hx; cases hx
  | cons hfy _ ih =>
    intro x hx
    rcases List.mem_cons.mp hx with rfl | hx
    · exact ⟨_, hfy, List.mem_cons_self _ _⟩
    · rcases ih hx with ⟨y, hy, hmem⟩
      exact ⟨y, hy, List.mem_cons_of_mem _ hmem⟩

theorem forall2_mem_right {R : α → β → Prop} {xs : List α} {ys : List β}
    (h : List.Forall₂ R xs ys) :
    ∀ {y : β}, y ∈ ys → ∃ x, x ∈ xs ∧ R x y := by
  induction h with
  | nil => intro y hy; cases hy
  | cons hfy _ ih =>
    intro y hy
    rcases List.mem_cons.mp hy with rfl | hy
    · exact ⟨_, List.mem_cons_self _ _, hfy⟩
    · rcases ih hy with ⟨x, hx, hxy⟩
      exact ⟨x, List.mem_cons_of_mem _ hx, hxy⟩

theorem mapOption_mem_left {f : α → Option β} {xs : List α} {ys : List β}
    (h : mapOption f xs = some ys) {x : α} (hx : x ∈ xs) :
    ∃ y, f x = some y ∧ y ∈ ys :=
  forall2_mem_left (mapOption_forall2 h) hx

theorem mapOption_mem_right {f : α → Option β} {xs : List α} {ys : List β}
    (h : mapOption f xs = some ys) {y : β} (hy : y ∈ ys) :
    ∃ x, x ∈ xs ∧ f x = some y :=
  forall2_mem_right (mapOption_forall2 h) hy

theorem mapOption_isSome {f : α → Option β} {xs : List α}
    (h : ∀ x ∈ xs, (f x).isSome) : (mapOption f xs).isSome := by
  induction xs with
  | nil => simp [mapOption]
  | cons x xs ih =>
    simp only [mapOption]
    rcases Option.isSome_iff_exists.mp (h x (List.mem_cons_self _ _)) with ⟨y, hy⟩
    rw [hy]
    rcases Option.isSome_iff_exists.mp
        (ih (fun z hz => h z (List.mem_cons_of_mem _ hz))) with ⟨ys, hys⟩
    rw [hys]
    rfl

theorem forall2_map_eq {R : α → β → Prop} {g : β → γ} {k : α → γ}
    (hc : ∀ x y, R x y → g y = k x) {xs : List α} {ys : List β}
    (h : List.Forall₂ R xs ys) : ys.map g = xs.map k := by
  induction h with
  | nil => rfl
  | cons hfy _ ih => simp only [List.map_cons, ih, hc _ _ hfy]

theorem mapOption_map_eq {f : α → Option β} {g : β → γ} {k : α → γ}
    (hc : ∀ x y, f x = some y → g y = k x) {xs : List α} {ys : List β}
    (h : mapOption f xs = some ys) : ys.map g = xs.map k :=
  forall2_map_eq hc (mapOption_forall2 h)

end MapOptionLemmas

section SortLemmas

variable {α : Type _}

theorem insertLe_perm (le : α → α → Bool) (x : α) (l : List α) :
    (insertLe le x l).Perm (x :: l) := by
  induction l with
  | nil => exact .refl _
  | cons y ys ih =>
    simp only [insertLe]
    split
    · exact .refl _
    · exact (List.Perm.cons y ih).trans (List.Perm.swap x y ys)

theorem sortLe_perm (le : α → α → Bool) (l : List α) :
    (sortLe le l).Perm l := by
  induction l with
  | nil => exact .refl _
  | cons x xs ih =>
    exact (insertLe_perm le x (sortLe le xs)).trans (List.Perm.cons x ih)

theorem mem_sortLe {le : α → α → Bool} {l : List α} {a : α} :
    a ∈ sortLe le l ↔ a ∈ l :=
  (sortLe_perm le l).mem_iff

theorem length_sortLe (le : α → α → Bool) (l : List α) :
    (sortLe le l).length = l.length :=
  (sortLe_perm le l).length_eq

end SortLemmas

section ExpandLemmas

theorem expand_succ_inv {s : Store} {fuel : Nat} {p : Product}
    {e : ExpandedProduct}
    (h : expandQuestionsRecursively s (fuel + 1) p = some e) :
    ∃ qs, mapOption (expandEntry s fuel) (questionRows s p.id) = some qs ∧
      e = ExpandedProduct.node p qs := by
  rw [expand_succ] at h
  rcases Option.map_eq_some'.mp h with ⟨qs, hm, hq⟩
  exact ⟨qs, hm, hq.symm⟩

theorem expand_base {s : Store} {fuel : Nat} {p : Product} {e : ExpandedProduct}
    (h : expandQuestionsRecursively s fuel p = some e) : e.base = p := by
  cases fuel with
  | zero => rw [expand_zero] at h; cases h
  | succ n =>
    rcases expand_succ_inv h with ⟨qs, _, rfl⟩
    rfl

theorem expandEntry_inv {s : Store} {fuel : Nat} {qp : QuestionProduct}
    {entry : Question × List ExpandedProduct}
    (h : expandEntry s fuel qp = some entry) :
    ∃ q answers expAnswers,
      lookupQuestion s qp.questionId = some q ∧
      mapOption (fun a => lookupProduct s a.productId) (answerRows s q.id) =
        some answers ∧
      mapOption (expandQuestionsRecursively s fuel) answers = some expAnswers ∧
      entry = (q, expAnswers) := by
  unfold expandEntry at h
  rcases Option.bind_eq_some.mp h with ⟨q, hq, h2⟩
  rcases Option.bind_eq_some.mp h2 with ⟨answers, hans, h3⟩
  rcases Option.map_eq_some'.mp h3 with ⟨expAnswers, hexp, hentry⟩
  exact ⟨q, answers, expAnswers, hq, hans, hexp, hentry.symm⟩

theorem expand_attaches {s : Store} {fuel : Nat} {p : Product}
    {e : ExpandedProduct} {qp : QuestionProduct} {q : Question}
    {a : QuestionProduct} {ap : Product}
    (he : expandQuestionsRecursively s (fuel + 1) p = some e)
    (hqp : qp ∈ s.questionProducts) (hpid : qp.productId = p.id)
    (hqt : qp.itemType = QuestionProductType.QUESTION)
    (hq : lookupQuestion s qp.questionId = some q)
    (ha : a ∈ s.questionProducts) (haq : a.questionId = q.id)
    (hat : a.itemType = QuestionProductType.ANSWER)
    (hap : lookupProduct s a.productId = some ap) :
    ∃ answers, (q, answers) ∈ e.questionEntries ∧
      ∃ e', e' ∈ answers ∧ expandQuestionsRecursively s fuel ap = some e' := by
  rcases expand_succ_inv he with ⟨qs, hm, rfl⟩
  have hqpmem : qp ∈ questionRows s p.id := by
    simp [questionRows, List.mem_filter, hqp, hpid, hqt]
  rcases mapOption_mem_left hm hqpmem with ⟨entry, hentry, hentrymem⟩
  rcases expandEntry_inv hentry with ⟨q', answers0, expAnswers, hq', hans, hexp, rfl⟩
  have hqq : q' = q := by
    rw [hq] at hq'
    exact (Option.some_inj.mp hq').symm
  subst hqq
  have hamem : a ∈ answerRows s q'.id := by
    simp [answerRows, List.mem_filter, ha, haq, hat]
  rcases mapOption_mem_left hans hamem with ⟨ap', hap', hapmem⟩
  have happ : ap' = ap := by
    rw [hap] at hap'
    exact (Option.some_inj.mp hap').symm
  subst happ
  rcases mapOption_mem_left hexp hapmem with ⟨e', he', hemem⟩
  exact ⟨expAnswers, hentrymem, e', hemem, he'⟩

theorem questionRows_nil {s : Store} {p : Product}
    (h : ∀ qp ∈ s.questionProducts,
      qp.productId = p.id → qp.itemType ≠ QuestionProductType.QUESTION) :
    questionRows s p.id = [] := by
  refine List.filter_eq_nil_iff.mpr ?_
  intro qp hqp
  simp only [Bool.and_eq_true, beq_iff_eq, not_and]
  intro h1 h2
  exact h qp hqp h1 h2

theorem answerRows_nil {s : Store} {q : Question}
    (h : ∀ a ∈ s.questionProducts,
      a.questionId = q.id → a.itemType ≠ QuestionProductType.ANSWER) :
    answerRows s q.id = [] := by
  refine List.filter_eq_nil_iff.mpr ?_
  intro a ha
  simp only [Bool.and_eq_true, beq_iff_eq, not_and]
  intro h1 h2
  exact h a ha h1 h2

end ExpandLemmas

theorem mem_dedupFirst {x : String} :
    ∀ {l : List String}, x ∈ ProductsService.dedupFirst l ↔ x ∈ l := by
  intro l
  induction l with
  | nil => simp [ProductsService.dedupFirst]
  | cons y ys ih =>
    simp only [ProductsService.dedupFirst, List.mem_cons, List.mem_filter, ih]
    constructor
    · rintro (rfl | ⟨h, _⟩)
      · exact Or.inl rfl
      · exact Or.inr h
    · rintro (rfl | h)
      · exact Or.inl rfl
      · by_cases hxy : x = y
        · exact Or.inl hxy
        · exact Or.inr ⟨h, by simpa using hxy⟩

theorem nodup_dedupFirst : ∀ (l : List String),
    (ProductsService.dedupFirst l).Nodup := by
  intro l
  induction l with
  | nil => exact List.nodup_nil
  | cons y ys ih =>
    refine List.Nodup.cons ?_ (ih.filter _)
    intro hy
    rcases List.mem_filter.mp hy with ⟨_, hne⟩
    simp at hne

/-- Claim C1: for a product P with a QUESTION-typed QuestionProduct row to a
question Q, where Q has an ANSWER-typed row to a product A, the recursive
expansion returns P augmented with a questions entry carrying Q's fields
(the questionProducts relation stripped) whose answers list contains A', the
recursive expansion of A with the remaining fuel. -/
theorem C1_expand_recursive_shape
    (s : Store) (fuel : Nat) (p : Product) (e : ExpandedProduct)
    (qp : QuestionProduct) (q : Question) (a : QuestionProduct) (ap : Product)
    (he : expandQuestionsRecursively s (fuel + 1) p = some e)
    (hqp : qp ∈ s.questionProducts) (hpid : qp.productId = p.id)
    (hqt : qp.itemType = QuestionProductType.QUESTION)
    (hq : lookupQuestion s qp.questionId = some q)
    (ha : a ∈ s.questionProducts) (haq : a.questionId = q.id)
    (hat : a.itemType = QuestionProductType.ANSWER)
    (hap : lookupProduct s a.productId = some ap) :
    e.base = p ∧
    ∃ answers, (q, answers) ∈ e.questionEntries ∧
      ∃ e', e' ∈ answers ∧ expandQuestionsRecursively s fuel ap = some e' :=
  ⟨expand_base he, expand_attaches he hqp hpid hqt hq ha haq hat hap⟩

/-- The expansion of the demo store used to witness C1. -/
def demoExpanded : ExpandedProduct :=
  .node demoP1 [(demoQ1, [.node demoP2 []])]

/-- Witness for C1 at the demo store. -/
theorem C1_expand_recursive_shape_witness :
    demoExpanded.base = demoP1 ∧
    ∃ answers, (demoQ1, answers) ∈ demoExpanded.questionEntries ∧
      ∃ e', e' ∈ answers ∧ expandQuestionsRecursively demoStore 1 demoP2 = some e' :=
  C1_expand_recursive_shape demoStore 1 demoP1 demoExpanded demoE1 demoQ1
    demoE2 demoP2 rfl (by decide) rfl rfl rfl (by decide) rfl rfl rfl

/-- Claim C2: a product with zero QUESTION-typed rows expands to itself with
`questions = []`; and a question attached during expansion that has zero
ANSWER-typed rows is returned with `answers = []`. -/
theorem C2_expand_base_cases :
    (∀ (s : Store) (fuel : Nat) (p : Product),
      (∀ qp ∈ s.questionProducts,
        qp.productId = p.id → qp.itemType ≠ QuestionProductType.QUESTION) →
      expandQuestionsRecursively s (fuel + 1) p =
        some (ExpandedProduct.node p [])) ∧
    (∀ (s : Store) (fuel : Nat) (p : Product) (e : ExpandedProduct)
      (qp : QuestionProduct) (q : Question),
      expandQuestionsRecursively s (fuel + 1) p = some e →
      qp ∈ s.questionProducts → qp.productId = p.id →
      qp.itemType = QuestionProductType.QUESTION →
      lookupQuestion s qp.questionId = some q →
      (∀ a ∈ s.questionProducts,
        a.questionId = q.id → a.itemType ≠ QuestionProductType.ANSWER) →
      (q, []) ∈ e.questionEntries ∧
        ∀ ans, (q, ans) ∈ e.questionEntries → ans = []) := by
  constructor
  · intro s fuel p h
    rw [expand_succ, questionRows_nil h]
    rfl
  · intro s fuel p e qp q he hqp hpid hqt hq hnoans
    rcases expand_succ_inv he with ⟨qs, hm, rfl⟩
    constructor
    · have hqpmem : qp ∈ questionRows s p.id := by
        simp [questionRows, List.mem_filter, hqp, hpid, hqt]
      rcases mapOption_mem_left hm hqpmem with ⟨entry, hentry, hentrymem⟩
      rcases expandEntry_inv hentry with ⟨q', answers0, expAnswers, hq', hans, hexp, rfl⟩
      have hqq : q' = q := by
        rw [hq] at hq'
        exact (Option.some_inj.mp hq').symm
      subst hqq
      rw [answerRows_nil hnoans] at hans
      obtain rfl : answers0 = [] := by
        simpa [mapOption] using hans.symm
      obtain rfl : expAnswers = [] := by
        simpa [mapOption] using hexp.symm
      exact hentrymem
    · intro ans hmem
      rcases mapOption_mem_right hm hmem with ⟨row, _, hrow⟩
      rcases expandEntry_inv hrow with ⟨q', answers0, expAnswers, hq', hans, hexp, hpair⟩
      injection hpair with h1 h2
      subst h1
      rw [answerRows_nil hnoans] at hans
      obtain rfl : answers0 = [] := by
        simpa [mapOption] using hans.symm
      obtain rfl : expAnswers = [] := by
        simpa [mapOption] using hexp.symm
      exact h2

/-- Spec example for C2: a NUMBER question "Size?" linked to a product and
having no ANSWER rows yet. -/
def c2P : Product :=
  { id := "cp", sku := "C2", name := "Combo", description := "",
    basePrice := 20, status := .ACTIVE, deletedAt := none, deletedBy := none }

/-- The "Size?" question of the C2 spec example. -/
def c2Q : Question :=
  { id := "cq", name := "Size?", required := true,
    min := some 1, max := some 3, questionType := .NUMBER,
    isActive := true, deletedAt := none, deletedBy := none }

/-- QUESTION edge cp → cq of the C2 spec example. -/
def c2E : QuestionProduct :=
  { id := "ce", questionId := "cq", productId := "cp", position := 0,
    itemType := .QUESTION }

/-- Store for the C2 spec example. -/
def c2Store : Store :=
  { products := [c2P], questions := [c2Q], questionProducts := [c2E], tags := [] }

/-- Witness for C2: the demo answer product (no QUESTION rows) expands with
empty questions, and the "Size?" question (no ANSWER rows) is attached with
empty answers. -/
theorem C2_expand_base_cases_witness :
    expandQuestionsRecursively demoStore 1 demoP2 =
      some (ExpandedProduct.node demoP2 []) ∧
    ((c2Q, []) ∈ (ExpandedProduct.node c2P [(c2Q, [])]).questionEntries ∧
      ∀ ans, (c2Q, ans) ∈
        (ExpandedProduct.node c2P [(c2Q, [])]).questionEntries → ans = []) :=
  ⟨C2_expand_base_cases.1 demoStore 0 demoP2 (by decide),
    C2_expand_base_cases.2 c2Store 0 c2P (ExpandedProduct.node c2P [(c2Q, [])])
      c2E c2Q rfl (by decide) rfl rfl rfl (by decide)⟩

/-- Claim C9: ProductsService.findOne filters the root product on
`deletedAt: null`, but the recursive expansion applies no soft-delete or
isActive filter: any question attached by a QUESTION row and any answer
product attached by an ANSWER row appear in the returned tree whatever
their `deletedAt`/`isActive` values (the statement places no condition on
them; the witness instantiates it with a soft-deleted inactive question and
a soft-deleted answer product). -/
theorem C9_expansion_ignores_soft_delete
    (s : Store) (fuel : Nat) (id : String) (p : Product) (e : ExpandedProduct)
    (qp : QuestionProduct) (q : Question) (a : QuestionProduct) (ap : Product)
    (hfind : s.products.find? (fun x => x.id == id && x.deletedAt == none) = some p)
    (hone : ProductsService.findOne s (fuel + 1) id = some (Except.ok e))
    (hqp : qp ∈ s.questionProducts) (hpid : qp.productId = p.id)
    (hqt : qp.itemType = QuestionProductType.QUESTION)
    (hq : lookupQuestion s qp.questionId = some q)
    (ha : a ∈ s.questionProducts) (haq : a.questionId = q.id)
    (hat : a.itemType = QuestionProductType.ANSWER)
    (hap : lookupProduct s a.productId = some ap) :
    ∃ answers, (q, answers) ∈ e.questionEntries ∧
      ∃ e', e' ∈ answers ∧ e'.base = ap := by
  unfold ProductsService.findOne at hone
  rw [hfind] at hone
  rcases Option.map_eq_some'.mp hone with ⟨e0, hexp, heq⟩
  obtain rfl : e0 = e := by
    injection heq
  rcases expand_attaches hexp hqp hpid hqt hq ha haq hat hap with
    ⟨answers, hmem, e', he', hrec⟩
  exact ⟨answers, hmem, e', he', expand_base hrec⟩

/-- C9 witness root product (alive). -/
def c9Root : Product :=
  { id := "r", sku := "R1", name := "Root", description := "",
    basePrice := 5, status := .ACTIVE, deletedAt := none, deletedBy := none }

/-- C9 witness question: soft-deleted and inactive. -/
def c9Q : Question :=
  { id := "dq", name := "Ghost question", required := false,
    min := none, max := none, questionType := .TEXT,
    isActive := false, deletedAt := some 5, deletedBy := some "admin" }

/-- C9 witness answer product: soft-deleted and INACTIVE. -/
def c9A : Product :=
  { id := "da", sku := "DA", name := "Ghost answer", description := "",
    basePrice := 1, status := .INACTIVE, deletedAt := some 7,
    deletedBy := some "admin" }

/-- QUESTION edge r → dq. -/
def c9E1 : QuestionProduct :=
  { id := "f1", questionId := "dq", productId := "r", position := 0,
    itemType := .QUESTION }

/-- ANSWER edge dq → da. -/
def c9E2 : QuestionProduct :=
  { id := "f2", questionId := "dq", productId := "da", position := 0,
    itemType := .ANSWER }

/-- C9 witness store. -/
def c9Store : Store :=
  { products := [c9Root, c9A], questions := [c9Q],
    questionProducts := [c9E1, c9E2], tags := [] }

/-- Witness for C9: the soft-deleted inactive question and the soft-deleted
answer product appear in the tree findOne returns. -/
theorem C9_expansion_ignores_soft_delete_witness :
    ∃ answers,
      (c9Q, answers) ∈
        (ExpandedProduct.node c9Root [(c9Q, [.node c9A []])]).questionEntries ∧
      ∃ e', e' ∈ answers ∧ e'.base = c9A :=
  C9_expansion_ignores_soft_delete c9Store 1 "r" c9Root
    (ExpandedProduct.node c9Root [(c9Q, [.node c9A []])])
    c9E1 c9Q c9E2 c9A rfl rfl (by decide) rfl rfl rfl (by decide) rfl rfl rfl

/-- Claim C7: update(id, patch) on an id that is absent or soft-deleted
fails with a NotFound structured error and performs no write: the returned
store is the input store, because existence is checked via findOne before
the update statement (ProductsService.update and TagsService.update). -/
theorem C7_update_not_found_no_write :
    (∀ (s : Store) (fuel : Nat) (id : String)
      (d : ProductsService.UpdateProductData),
      (∀ p ∈ s.products, p.id = id → p.deletedAt ≠ none) →
      ProductsService.update s fuel id d =
        some (Except.error
          ⟨NOT_FOUND, "Product with id " ++ id ++ " not found"⟩, s)) ∧
    (∀ (s : Store) (id : String) (d : TagsService.UpdateTagData),
      (∀ t ∈ s.tags, t.id = id → t.deletedAt ≠ none) →
      TagsService.update s id d =
        (Except.error ⟨NOT_FOUND, "Tag with id " ++ id ++ " not found"⟩, s)) := by
  constructor
  · intro s fuel id d h
    have hfind : s.products.find?
        (fun p => p.id == id && p.deletedAt == none) = none := by
      refine List.find?_eq_none.mpr ?_
      intro p hp
      simp only [Bool.and_eq_true, beq_iff_eq, not_and]
      intro h1 h2
      exact h p hp h1 h2
    unfold ProductsService.update
    rw [hfind]
  · intro s id d h
    have hfind : s.tags.find?
        (fun t => t.id == id && t.deletedAt == none) = none := by
      refine List.find?_eq_none.mpr ?_
      intro t ht
      simp only [Bool.and_eq_true, beq_iff_eq, not_and]
      intro h1 h2
      exact h t ht h1 h2
    unfold TagsService.update TagsService.findOne
    rw [hfind]

/-- C7/C8 witness product: soft-deleted. -/
def c7P : Product :=
  { id := "gone", sku := "G1", name := "Gone", description := "",
    basePrice := 3, status := .INACTIVE, deletedAt := some 3,
    deletedBy := some "admin" }

/-- C7 witness tag: soft-deleted. -/
def c7T : Tag :=
  { id := "tgone", name := "old-tag", deletedAt := some 4,
    deletedBy := some "admin" }

/-- C7 witness store. -/
def c7Store : Store :=
  { products := [c7P], questions := [], questionProducts := [], tags := [c7T] }

/-- Witness for C7: updating the soft-deleted product and tag fails with
NotFound and leaves the store untouched. -/
theorem C7_update_not_found_no_write_witness :
    ProductsService.update c7Store 0 "gone" {} =
      some (Except.error
        ⟨NOT_FOUND, "Product with id " ++ "gone" ++ " not found"⟩, c7Store) ∧
    TagsService.update c7Store "tgone" {} =
      (Except.error ⟨NOT_FOUND, "Tag with id " ++ "tgone" ++ " not found"⟩,
        c7Store) :=
  ⟨C7_update_not_found_no_write.1 c7Store 0 "gone" {} (by decide),
    C7_update_not_found_no_write.2 c7Store "tgone" {} (by decide)⟩

/-- Claim C8: a soft-deleted record (deletedAt non-null) never appears in
findAll (products) or searchByName (questions) whatever its other flags,
and ProductsService.findOne on an id whose records are all soft-deleted (or
absent) fails with a NotFound structured error. -/
theorem C8_soft_deleted_excluded :
    (∀ (s : Store) (page limit : Nat) (p : Product),
      p ∈ (ProductsService.findAll s page limit).1 → p.deletedAt = none) ∧
    (∀ (s : Store) (name : String) (page limit : Nat) (q : Question),
      q ∈ (QuestionsService.searchByName s name page limit).list →
        q.deletedAt = none) ∧
    (∀ (s : Store) (fuel : Nat) (id : String),
      (∀ p ∈ s.products, p.id = id → p.deletedAt ≠ none) →
      ProductsService.findOne s fuel id =
        some (Except.error
          ⟨NOT_FOUND, "Product with id " ++ id ++ " not found"⟩)) := by
  refine ⟨?_, ?_, ?_⟩
  · intro s page limit p hp
    have hp2 : p ∈ s.products.filter
        (fun p => p.status == ProductStatus.ACTIVE && p.deletedAt == none) :=
      List.mem_of_mem_drop (List.mem_of_mem_take hp)
    rcases List.mem_filter.mp hp2 with ⟨-, hcond⟩
    simp only [Bool.and_eq_true, beq_iff_eq] at hcond
    exact hcond.2
  · intro s name page limit q hq
    have hq2 : q ∈ sortLe (fun a b => a.name ≤ b.name)
        (s.questions.filter
          (fun q => containsCI q.name name && q.isActive && q.deletedAt == none)) :=
      List.mem_of_mem_drop (List.mem_of_mem_take hq)
    have hq3 := mem_sortLe.mp hq2
    rcases List.mem_filter.mp hq3 with ⟨-, hcond⟩
    simp only [Bool.and_eq_true, beq_iff_eq] at hcond
    exact hcond.2
  · intro s fuel id h
    have hfind : s.products.find?
        (fun p => p.id == id && p.deletedAt == none) = none := by
      refine List.find?_eq_none.mpr ?_
      intro p hp
      simp only [Bool.and_eq_true, beq_iff_eq, not_and]
      intro h1 h2
      exact h p hp h1 h2
    unfold ProductsService.findOne
    rw [hfind]

/-- C8 witness store: one alive product/question next to soft-deleted ones. -/
def c8Store : Store :=
  { products := [demoP1, c7P],
    questions :=
      [ demoQ1,
        { id := "qdel", name := "Add a topping?", required := false,
          min := none, max := none, questionType := .TEXT,
          isActive := true, deletedAt := some 9, deletedBy := none } ],
    questionProducts := [], tags := [] }

/-- Witness for C8 at the concrete store: the alive rows are returned (so
the list hypotheses are satisfiable), their deletedAt is null, and findOne
of the soft-deleted product's id is NotFound. -/
theorem C8_soft_deleted_excluded_witness :
    demoP1.deletedAt = none ∧
    demoQ1.deletedAt = none ∧
    ProductsService.findOne c8Store 0 "gone" =
      some (Except.error
        ⟨NOT_FOUND, "Product with id " ++ "gone" ++ " not found"⟩) :=
  ⟨C8_soft_deleted_excluded.1 c8Store 1 10 demoP1 (by decide),
    C8_soft_deleted_excluded.2.1 c8Store "topping" 1 10 demoQ1 (by decide),
    C8_soft_deleted_excluded.2.2 c8Store 0 "gone" (by decide)⟩

/-- Unfolding of validateProducts (zeta-reduced). -/
theorem validateProducts_eq (s : Store) (ids : List String) :
    ProductsService.validateProducts s ids =
      (if (s.products.filter
            (fun p => (ProductsService.dedupFirst ids).contains p.id)).length ≠
          (ProductsService.dedupFirst ids).length then
        Except.error ⟨BAD_REQUEST,
          "Some products were not found: " ++
            String.intercalate ", "
              ((ProductsService.dedupFirst ids).filter
                (fun id =>
                  !((s.products.filter
                      (fun p => (ProductsService.dedupFirst ids).contains p.id)).map
                    (fun p => p.id)).contains id))⟩
      else
        Except.ok (s.products.filter
          (fun p => (ProductsService.dedupFirst ids).contains p.id))) := rfl

/-- Bridge from `List.contains` to membership. -/
theorem contains_iff_mem {l : List String} {x : String} :
    l.contains x = true ↔ x ∈ l := by
  simp [List.contains, List.elem_iff]

/-- Membership in the found ids of validateProducts. -/
theorem foundIds_mem_iff (s : Store) (ids : List String) {id : String}
    (hid : id ∈ ProductsService.dedupFirst ids) :
    (id ∈ (s.products.filter
        (fun p => (ProductsService.dedupFirst ids).contains p.id)).map
      (fun p => p.id)) ↔ ∃ p ∈ s.products, p.id = id := by
  constructor
  · intro h
    rcases List.mem_map.mp h with ⟨p, hpmem, rfl⟩
    exact ⟨p, (List.filter_sublist _).subset hpmem, rfl⟩
  · rintro ⟨p, hpmem, rfl⟩
    refine List.mem_map.mpr ⟨p, List.mem_filter.mpr ⟨hpmem, ?_⟩, rfl⟩
    exact contains_iff_mem.mpr hid

/-- The length test of validateProducts succeeds exactly when every distinct
id has a matching product row (primary-key uniqueness assumed). -/
theorem validateProducts_length_iff (s : Store) (ids : List String)
    (hnodup : (s.products.map (fun p => p.id)).Nodup) :
    (s.products.filter
        (fun p => (ProductsService.dedupFirst ids).contains p.id)).length =
      (ProductsService.dedupFirst ids).length ↔
    ∀ id ∈ ids, ∃ p ∈ s.products, p.id = id := by
  have hsub : ((s.products.filter
      (fun p => (ProductsService.dedupFirst ids).contains p.id)).map
        (fun p => p.id)).Sublist (s.products.map (fun p => p.id)) :=
    (List.filter_sublist _).map _
  have hnod := hsub.nodup hnodup
  have hsubset : ((s.products.filter
      (fun p => (ProductsService.dedupFirst ids).contains p.id)).map
        (fun p => p.id)) ⊆ ProductsService.dedupFirst ids := by
    intro x hx
    rcases List.mem_map.mp hx with ⟨p, hpmem, rfl⟩
    rcases List.mem_filter.mp hpmem with ⟨-, hcond⟩
    exact contains_iff_mem.mp hcond
  have hsp := hnod.subperm hsubset
  have hlenmap : ((s.products.filter
      (fun p => (ProductsService.dedupFirst ids).contains p.id)).map
        (fun p => p.id)).length =
      (s.products.filter
        (fun p => (ProductsService.dedupFirst ids).contains p.id)).length :=
    List.length_map _ _
  constructor
  · intro hlen id hid
    have hperm := hsp.perm_of_length_le (by omega)
    have hidm : id ∈ ProductsService.dedupFirst ids := mem_dedupFirst.mpr hid
    have : id ∈ (s.products.filter
        (fun p => (ProductsService.dedupFirst ids).contains p.id)).map
          (fun p => p.id) := hperm.mem_iff.mpr hidm
    exact (foundIds_mem_iff s ids hidm).mp this
  · intro hall
    have hsubset2 : ProductsService.dedupFirst ids ⊆
        (s.products.filter
          (fun p => (ProductsService.dedupFirst ids).contains p.id)).map
            (fun p => p.id) := by
      intro id hid
      exact (foundIds_mem_iff s ids hid).mpr (hall id (mem_dedupFirst.mp hid))
    have hsp2 := (nodup_dedupFirst ids).subperm hsubset2
    have h1 := hsp.length_le
    have h2 := hsp2.length_le
    omega

/-- Claim C10: validateProducts removes duplicate ids, then succeeds
(returning the matching rows) iff every distinct id exists in the product
table — with no deletedAt or status filter, so soft-deleted and INACTIVE
products count as existing — and otherwise fails with a 400 BAD_REQUEST
structured error whose message lists exactly the ids without a matching
row.  Duplicate ids alone never cause a failure.  Primary-key uniqueness of
product ids is assumed. -/
theorem C10_validateProducts_semantics (s : Store) (ids : List String)
    (hnodup : (s.products.map (fun p => p.id)).Nodup) :
    ((∃ ps, ProductsService.validateProducts s ids = Except.ok ps) ↔
      ∀ id ∈ ids, ∃ p ∈ s.products, p.id = id) ∧
    (∀ ps, ProductsService.validateProducts s ids = Except.ok ps →
      ps = s.products.filter
        (fun p => (ProductsService.dedupFirst ids).contains p.id)) ∧
    (¬(∀ id ∈ ids, ∃ p ∈ s.products, p.id = id) →
      ProductsService.validateProducts s ids =
        Except.error ⟨BAD_REQUEST,
          "Some products were not found: " ++
            String.intercalate ", "
              ((ProductsService.dedupFirst ids).filter
                (fun id => !s.products.any (fun p => p.id == id)))⟩) := by
  have hkey := validateProducts_length_iff s ids hnodup
  refine ⟨⟨?_, ?_⟩, ?_, ?_⟩
  · rintro ⟨ps, hok⟩
    rw [validateProducts_eq] at hok
    by_cases hlen : (s.products.filter
        (fun p => (ProductsService.dedupFirst ids).contains p.id)).length =
          (ProductsService.dedupFirst ids).length
    · exact hkey.mp hlen
    · rw [if_pos hlen] at hok
      cases hok
  · intro hall
    refine ⟨s.products.filter
      (fun p => (ProductsService.dedupFirst ids).contains p.id), ?_⟩
    rw [validateProducts_eq, if_neg (not_not_intro (hkey.mpr hall))]
  · intro ps hok
    rw [validateProducts_eq] at hok
    by_cases hlen : (s.products.filter
        (fun p => (ProductsService.dedupFirst ids).contains p.id)).length =
          (ProductsService.dedupFirst ids).length
    · rw [if_neg (not_not_intro hlen)] at hok
      exact (Except.ok.injEq _ _ ▸ hok).symm ▸ rfl
    · rw [if_pos hlen] at hok
      cases hok
  · intro hnall
    have hlen : (s.products.filter
        (fun p => (ProductsService.dedupFirst ids).contains p.id)).length ≠
          (ProductsService.dedupFirst ids).length :=
      fun h => hnall (hkey.mp h)
    rw [validateProducts_eq, if_pos hlen]
    have hfe : (ProductsService.dedupFirst ids).filter
        (fun id =>
          !((s.products.filter
              (fun p => (ProductsService.dedupFirst ids).contains p.id)).map
            (fun p => p.id)).contains id) =
        (ProductsService.dedupFirst ids).filter
          (fun id => !s.products.any (fun p => p.id == id)) := by
      refine List.filter_congr ?_
      intro id hid
      have hiff : (((s.products.filter
          (fun p => (ProductsService.dedupFirst ids).contains p.id)).map
            (fun p => p.id)).contains id) =
          (s.products.any (fun p => p.id == id)) := by
        rw [Bool.eq_iff_iff]
        rw [contains_iff_mem, List.any_eq_true]
        rw [foundIds_mem_iff s ids hid]
        simp [beq_iff_eq]
      rw [hiff]
    rw [hfe]

/-- C10 witness product (alive). -/
def c10P : Product :=
  { id := "a", sku := "A1", name := "Alive", description := "",
    basePrice := 4, status := .ACTIVE, deletedAt := none, deletedBy := none }

/-- C10 witness store: one alive and one soft-deleted product. -/
def c10Store : Store :=
  { products := [c10P, c7P], questions := [], questionProducts := [],
    tags := [] }

/-- Witness for C10: with duplicate ids and a soft-deleted id among them,
validateProducts still succeeds. -/
theorem C10_validateProducts_semantics_witness :
    ∃ ps, ProductsService.validateProducts c10Store ["a", "gone", "a"] =
      Except.ok ps :=
  (C10_validateProducts_semantics c10Store ["a", "gone", "a"]
    (by decide)).1.mpr (by decide)

/-- The ordering property claim C4 asserts of the expanded tree: along the
returned questions array, the positions stored on the QUESTION-typed rows
that attach the questions to the node are ascending. -/
def questionsAscendingByPosition (s : Store) (p : Product)
    (qs : List (Question × List ExpandedProduct)) : Prop :=
  List.Pairwise (fun a b =>
    ∀ ra ∈ s.questionProducts, ∀ rb ∈ s.questionProducts,
      ra.productId = p.id → ra.itemType = QuestionProductType.QUESTION →
      ra.questionId = a.1.id →
      rb.productId = p.id → rb.itemType = QuestionProductType.QUESTION →
      rb.questionId = b.1.id → ra.position ≤ rb.position) qs

/-- C4 root product. -/
def c4P : Product :=
  { id := "p4", sku := "P4", name := "Burger", description := "",
    basePrice := 8, status := .ACTIVE, deletedAt := none, deletedBy := none }

/-- C4 first question (attached at position 2). -/
def c4Q1 : Question :=
  { id := "q1", name := "Sauce?", required := false,
    min := none, max := none, questionType := .SINGLE_CHOICE,
    isActive := true, deletedAt := none, deletedBy := none }

/-- C4 second question (attached at position 1). -/
def c4Q2 : Question :=
  { id := "q2", name := "Side?", required := false,
    min := none, max := none, questionType := .SINGLE_CHOICE,
    isActive := true, deletedAt := none, deletedBy := none }

/-- QUESTION row attaching q1 at position 2; it precedes the position-1 row
in table order. -/
def c4RowA : QuestionProduct :=
  { id := "g1", questionId := "q1", productId := "p4", position := 2,
    itemType := .QUESTION }

/-- QUESTION row attaching q2 at position 1, second in table order. -/
def c4RowB : QuestionProduct :=
  { id := "g2", questionId := "q2", productId := "p4", position := 1,
    itemType := .QUESTION }

/-- C4 store. -/
def c4Store : Store :=
  { products := [c4P], questions := [c4Q1, c4Q2],
    questionProducts := [c4RowA, c4RowB], tags := [] }

/-- Counterexample to claim C4: the expansion query has no `orderBy`, so
with the position-2 row stored before the position-1 row the questions come
back in positions order 2, 1 — not ascending. -/
theorem C4_counterexample :
    expandQuestionsRecursively c4Store 1 c4P =
      some (.node c4P [(c4Q1, []), (c4Q2, [])]) ∧
    ¬ questionsAscendingByPosition c4Store c4P [(c4Q1, []), (c4Q2, [])] := by
  constructor
  · rfl
  · intro h
    have h1 := (List.pairwise_cons.mp h).1 (c4Q2, []) (by simp)
    have hle := h1 c4RowA (by decide) c4RowB (by decide)
      rfl rfl rfl rfl rfl rfl
    exact absurd hle (by decide)

/-- Claim C4 (amended): the questions attached to a node appear in the
order in which the store returns the QUESTION-typed QuestionProduct rows
(table order) — the expansion applies no ordering by position. -/
theorem C4_amended_question_order (s : Store) (fuel : Nat) (p : Product)
    (e : ExpandedProduct)
    (he : expandQuestionsRecursively s (fuel + 1) p = some e) :
    e.questionEntries.map (fun entry => entry.1.id) =
      (questionRows s p.id).map (fun qp => qp.questionId) := by
  rcases expand_succ_inv he with ⟨qs, hm, rfl⟩
  refine mapOption_map_eq ?_ hm
  intro qp entry h
  rcases expandEntry_inv h with ⟨q, _, _, hq, _, _, rfl⟩
  have := List.find?_some hq
  simpa [beq_iff_eq] using this

/-- Witness for the amended C4 at the counterexample store: the output
order is the table order q1, q2 (positions 2, 1). -/
theorem C4_amended_question_order_witness :
    (ExpandedProduct.node c4P [(c4Q1, []), (c4Q2, [])]).questionEntries.map
        (fun entry => entry.1.id) =
      (questionRows c4Store c4P.id).map (fun qp => qp.questionId) :=
  C4_amended_question_order c4Store 0 c4P
    (ExpandedProduct.node c4P [(c4Q1, []), (c4Q2, [])]) rfl

/-- The observable content of a stored relationship row, for comparing what
findByProductId returns with what was submitted: question id, item type and
stored position. -/
def rowContent (r : QuestionProduct) :
    String × QuestionProductType × Option Nat :=
  (r.questionId, r.itemType, some r.position)

/-- The content of a submitted relationship item. -/
def itemContent (d : ProductQuestionService.QuestionItem) :
    String × QuestionProductType × Option Nat :=
  (d.questionId, d.itemType, d.position)

/-- The submitted items after bulkCreate's `position: position || index`
defaulting (JavaScript falsy: absent or 0 becomes the array index). -/
def defaultedContent (items : List ProductQuestionService.QuestionItem) :
    List (String × QuestionProductType × Option Nat) :=
  items.enum.map
    (fun p => (p.2.questionId, p.2.itemType, some (jsOr p.2.position p.1)))

/-- A pre-existing relationship row of product px. -/
def c5Old : QuestionProduct :=
  { id := "old1", questionId := "qa", productId := "px", position := 0,
    itemType := .QUESTION }

/-- C5 store before the replace. -/
def c5Store : Store :=
  { products := [], questions := [], questionProducts := [c5Old], tags := [] }

/-- C5 new items: the second one carries the explicit position 0, which is
falsy in JavaScript. -/
def c5Items : List ProductQuestionService.QuestionItem :=
  [ { questionId := "qa", position := some 1, itemType := .QUESTION },
    { questionId := "qb", position := some 0, itemType := .QUESTION } ]

/-- Database-generated ids for the two created rows. -/
def c5NewIds : List String := ["n1", "n2"]

/-- Counterexample to claim C5: after replaceByProductId(px, c5Items), the
second item (explicit position 0, at index 1) is stored with position 1
because of `position: question.position || index`, so findByProductId does
not return the same content as c5Items. -/
theorem C5_counterexample :
    ((ProductQuestionService.findByProductId
        (ProductQuestionService.replaceByProductId c5Store "px" c5Items
          c5NewIds none).2 "px").map rowContent =
      [("qa", .QUESTION, some 1), ("qb", .QUESTION, some 1)]) ∧
    ¬ ((ProductQuestionService.findByProductId
        (ProductQuestionService.replaceByProductId c5Store "px" c5Items
          c5NewIds none).2 "px").map rowContent).Perm
      (c5Items.map itemContent) := by
  constructor
  · rfl
  · decide

/-- Deconstruct membership of a zipWith result. -/
theorem mem_zipWith {α β γ : Type _} {f : α → β → γ} :
    ∀ {as : List α} {bs : List β} {c : γ},
      c ∈ List.zipWith f as bs → ∃ a b, a ∈ as ∧ b ∈ bs ∧ c = f a b := by
  intro as
  induction as with
  | nil => intro bs c h; cases h
  | cons a as ih =>
    intro bs c h
    cases bs with
    | nil => cases h
    | cons b bs =>
      rcases List.mem_cons.mp h with rfl | h
      · exact ⟨a, b, List.mem_cons_self _ _, List.mem_cons_self _ _, rfl⟩
      · rcases ih h with ⟨a', b', ha, hb, rfl⟩
        exact ⟨a', b', List.mem_cons_of_mem _ ha, List.mem_cons_of_mem _ hb, rfl⟩

/-- The rows created by bulkCreate carry the target productId. -/
theorem relationshipData_productId {pid : String} {newIds : List String}
    {items : List ProductQuestionService.QuestionItem} {r : QuestionProduct}
    (h : r ∈ ProductQuestionService.relationshipData pid newIds items) :
    r.productId = pid := by
  rcases mem_zipWith h with ⟨a, b, _, _, rfl⟩
  rfl

/-- The row ids created by bulkCreate come from the generated id list. -/
theorem relationshipData_id {pid : String} {newIds : List String}
    {items : List ProductQuestionService.QuestionItem} {r : QuestionProduct}
    (h : r ∈ ProductQuestionService.relationshipData pid newIds items) :
    r.id ∈ newIds := by
  rcases mem_zipWith h with ⟨a, b, ha, _, rfl⟩
  exact ha

/-- Content of the created rows: the submitted items with the
`position || index` defaulting applied. -/
theorem relationshipData_content (pid : String) :
    ∀ (newIds : List String) (en : List (Nat × ProductQuestionService.QuestionItem)),
      newIds.length = en.length →
      (List.zipWith
          (fun rid (p : Nat × ProductQuestionService.QuestionItem) =>
            ({ id := rid,
               questionId := p.2.questionId,
               productId := pid,
               position := jsOr p.2.position p.1,
               itemType := p.2.itemType } : QuestionProduct))
          newIds en).map rowContent =
        en.map (fun p => (p.2.questionId, p.2.itemType, some (jsOr p.2.position p.1))) := by
  intro newIds
  induction newIds with
  | nil =>
    intro en hlen
    cases en with
    | nil => rfl
    | cons b bs => cases hlen
  | cons a as ih =>
    intro en hlen
    cases en with
    | nil => cases hlen
    | cons b bs =>
      simp only [List.zipWith, List.map_cons]
      refine congrArg _ ?_
      exact ih bs (by simpa using hlen)

/-- After a successful replace, the rows for the product are exactly the
created rows. -/
theorem replace_rows (s : Store) (pid : String)
    (items : List ProductQuestionService.QuestionItem) (newIds : List String) :
    ((ProductQuestionService.replaceByProductId s pid items newIds
        none).2).questionProducts.filter (fun r => r.productId == pid) =
      ProductQuestionService.relationshipData pid newIds items := by
  show (List.filter _ ((s.questionProducts.filter
      (fun qp => !(qp.productId == pid))) ++
        ProductQuestionService.relationshipData pid newIds items)) = _
  rw [List.filter_append, List.filter_filter]
  have h1 : (s.questionProducts.filter
      (fun a => (a.productId == pid) && !(a.productId == pid))) = [] := by
    refine List.filter_eq_nil_iff.mpr ?_
    intro a _
    simp
  have h2 : (ProductQuestionService.relationshipData pid newIds items).filter
      (fun r => r.productId == pid) =
      ProductQuestionService.relationshipData pid newIds items := by
    refine List.filter_eq_self.mpr ?_
    intro r hr
    simpa [beq_iff_eq] using relationshipData_productId hr
  rw [h1, h2]
  rfl

/-- Claim C5 (amended): replaceByProductId(X, newItems) followed by
findByProductId(X) returns exactly as many rows as newItems, whose content
is a permutation of newItems with the `position || index` defaulting
applied (an absent or 0 position becomes the item's index), and none of the
rows that existed for X before the replace — full replacement, not a
union.  The database-generated row ids are assumed fresh. -/
theorem C5_amended_replace_semantics (s : Store) (pid : String)
    (items : List ProductQuestionService.QuestionItem) (newIds : List String)
    (hlen : newIds.length = items.length)
    (hfresh : ∀ i ∈ newIds, i ∉ s.questionProducts.map (fun r => r.id)) :
    ((ProductQuestionService.findByProductId
        (ProductQuestionService.replaceByProductId s pid items newIds
          none).2 pid).length = items.length) ∧
    (((ProductQuestionService.findByProductId
        (ProductQuestionService.replaceByProductId s pid items newIds
          none).2 pid).map rowContent).Perm (defaultedContent items)) ∧
    (∀ old ∈ s.questionProducts, old.productId = pid →
      old ∉ ProductQuestionService.findByProductId
        (ProductQuestionService.replaceByProductId s pid items newIds
          none).2 pid) := by
  have hrows := replace_rows s pid items newIds
  have hfind : ProductQuestionService.findByProductId
      (ProductQuestionService.replaceByProductId s pid items newIds none).2 pid =
      sortLe (fun a b => a.position ≤ b.position)
        (ProductQuestionService.relationshipData pid newIds items) := by
    unfold ProductQuestionService.findByProductId
    rw [hrows]
  have hdatalen : (ProductQuestionService.relationshipData pid newIds
      items).length = items.length := by
    unfold ProductQuestionService.relationshipData
    rw [List.length_zipWith, List.enum_length, hlen, Nat.min_self]
  refine ⟨?_, ?_, ?_⟩
  · rw [hfind, length_sortLe, hdatalen]
  · rw [hfind]
    have hperm := (sortLe_perm (fun a b => a.position ≤ b.position)
      (ProductQuestionService.relationshipData pid newIds items)).map rowContent
    refine hperm.trans ?_
    have := relationshipData_content pid newIds items.enum
      (by rw [List.enum_length]; exact hlen)
    unfold ProductQuestionService.relationshipData
    rw [this]
    exact List.Perm.refl _
  · intro old hold holdpid hmem
    rw [hfind] at hmem
    have hmem2 := mem_sortLe.mp hmem
    have hid := relationshipData_id hmem2
    exact hfresh old.id hid (List.mem_map.mpr ⟨old, hold, rfl⟩)

/-- Witness for the amended C5 at the counterexample data: two rows come
back, with the defaulted content, and the old row is gone. -/
theorem C5_amended_replace_semantics_witness :
    ((ProductQuestionService.findByProductId
        (ProductQuestionService.replaceByProductId c5Store "px" c5Items
          c5NewIds none).2 "px").length = c5Items.length) ∧
    (((ProductQuestionService.findByProductId
        (ProductQuestionService.replaceByProductId c5Store "px" c5Items
          c5NewIds none).2 "px").map rowContent).Perm
      (defaultedContent c5Items)) ∧
    (∀ old ∈ c5Store.questionProducts, old.productId = "px" →
      old ∉ ProductQuestionService.findByProductId
        (ProductQuestionService.replaceByProductId c5Store "px" c5Items
          c5NewIds none).2 "px") :=
  C5_amended_replace_semantics c5Store "px" c5Items c5NewIds rfl (by decide)

/-- Claim C6: when the removeByProductId step of replaceByProductId
succeeds and the subsequent bulkCreate fails (injected database error `m`),
the call raises a structured 500 error and the store holds zero
relationship rows for the product: neither the original rows nor the new
items — the replace is not atomic. -/
theorem C6_replace_not_atomic (s : Store) (pid : String)
    (items : List ProductQuestionService.QuestionItem) (newIds : List String)
    (m : String) :
    ((ProductQuestionService.replaceByProductId s pid items newIds
        (some m)).1 =
      Except.error ⟨INTERNAL_SERVER_ERROR,
        jsOrStr
          (jsOrStr m "Unable to bulk create product-question relationships")
          "Unable to replace product-question relationships"⟩) ∧
    ((ProductQuestionService.replaceByProductId s pid items newIds
        (some m)).2).questionProducts.filter (fun r => r.productId == pid) =
      [] := by
  constructor
  · rfl
  · show (List.filter _ (s.questionProducts.filter
        (fun qp => !(qp.productId == pid)))) = []
    rw [List.filter_filter]
    refine List.filter_eq_nil_iff.mpr ?_
    intro a _
    simp

/-- One alternating step of the product/question graph: product `pid` has a
QUESTION-typed row to some question, which has an ANSWER-typed row to
product `cid` — exactly the edge the expansion recurses along. -/
def stepsTo (s : Store) (pid cid : String) : Prop :=
  ∃ qp aqp, qp ∈ s.questionProducts ∧ qp.productId = pid ∧
    qp.itemType = QuestionProductType.QUESTION ∧
    aqp ∈ s.questionProducts ∧ aqp.questionId = qp.questionId ∧
    aqp.itemType = QuestionProductType.ANSWER ∧ aqp.productId = cid

/-- The QuestionProduct graph is acyclic: no product reaches itself through
one or more alternating QUESTION/ANSWER steps. -/
def acyclicQuestionGraph (s : Store) : Prop :=
  ∀ pid, ¬ Relation.TransGen (stepsTo s) pid pid

/-- The last edge of a transitive chain. -/
theorem transGen_last {α : Type _} {r : α → α → Prop} {a c : α}
    (h : Relation.TransGen r a c) : ∃ b, r b c := by
  induction h with
  | single h => exact ⟨_, h⟩
  | tail _ h _ => exact ⟨_, h⟩

/-- The first edge of a transitive chain. -/
theorem transGen_first {α : Type _} {r : α → α → Prop} {a c : α}
    (h : Relation.TransGen r a c) : ∃ b, r a b := by
  induction h with
  | single h => exact ⟨_, h⟩
  | tail _ _ ih => exact ih

/-- Fuel-indexed termination: the expansion of `p` succeeds once the fuel
exceeds the size of a list containing every product id reachable from `p`,
provided the foreign keys resolve and the graph is acyclic.  The recursion
re-enters only products one `stepsTo` edge away, and acyclicity lets the
current target be removed from the allowance at each descent. -/
theorem expand_isSome_of_acyclic (s : Store)
    (hQ : ∀ qp ∈ s.questionProducts,
      qp.itemType = QuestionProductType.QUESTION →
        (lookupQuestion s qp.questionId).isSome)
    (hA : ∀ qp ∈ s.questionProducts,
      qp.itemType = QuestionProductType.ANSWER →
        (lookupProduct s qp.productId).isSome)
    (hacyc : acyclicQuestionGraph s) :
    ∀ (n : Nat) (allowed : List String) (p : Product),
      (∀ c, Relation.TransGen (stepsTo s) p.id c → c ∈ allowed) →
      allowed.length < n →
      (expandQuestionsRecursively s n p).isSome := by
  intro n
  induction n with
  | zero =>
    intro allowed p _ hlen
    exact absurd hlen (by omega)
  | succ m ih =>
    intro allowed p hreach hlen
    rw [expand_succ, Option.isSome_map']
    refine mapOption_isSome ?_
    intro qp hqpmem
    rcases List.mem_filter.mp hqpmem with ⟨hqpstore, hcond⟩
    simp only [Bool.and_eq_true, beq_iff_eq] at hcond
    obtain ⟨hpid, hqt⟩ := hcond
    rcases Option.isSome_iff_exists.mp (hQ qp hqpstore hqt) with ⟨q, hq⟩
    have hqid : q.id = qp.questionId := by
      simpa [beq_iff_eq] using List.find?_some hq
    unfold expandEntry
    rw [hq, Option.some_bind]
    have hansSome : (mapOption (fun a => lookupProduct s a.productId)
        (answerRows s q.id)).isSome := by
      refine mapOption_isSome ?_
      intro a hamem
      rcases List.mem_filter.mp hamem with ⟨hastore, hacond⟩
      simp only [Bool.and_eq_true, beq_iff_eq] at hacond
      exact hA a hastore hacond.2
    rcases Option.isSome_iff_exists.mp hansSome with ⟨answers, hans⟩
    rw [hans, Option.some_bind, Option.isSome_map']
    refine mapOption_isSome ?_
    intro ap hapmem
    rcases mapOption_mem_right hans hapmem with ⟨a, hamem, hlook⟩
    rcases List.mem_filter.mp hamem with ⟨hastore, hacond⟩
    simp only [Bool.and_eq_true, beq_iff_eq] at hacond
    obtain ⟨haq, hat⟩ := hacond
    have hapid : ap.id = a.productId := by
      simpa [beq_iff_eq] using List.find?_some hlook
    have hstep : stepsTo s p.id ap.id :=
      ⟨qp, a, hqpstore, hpid, hqt, hastore, by rw [haq, hqid], hat, hapid.symm⟩
    have hapidmem : ap.id ∈ allowed :=
      hreach ap.id (Relation.TransGen.single hstep)
    refine ih (allowed.erase ap.id) ap ?_ ?_
    · intro c hc
      have hc' : Relation.TransGen (stepsTo s) p.id c :=
        Relation.TransGen.head hstep hc
      have hcmem : c ∈ allowed := hreach c hc'
      have hne : c ≠ ap.id := by
        intro hceq
        exact hacyc ap.id (hceq ▸ hc)
      exact (List.mem_erase_of_ne hne).mpr hcmem
    · rw [List.length_erase, if_pos hapidmem]
      have : 0 < allowed.length := List.length_pos_of_mem hapidmem
      omega

/-- C3 cyclic store: product cp3 asks question cq3 whose answer is cp3
itself. -/
def c3P : Product :=
  { id := "cp3", sku := "C3", name := "Loop", description := "",
    basePrice := 1, status := .ACTIVE, deletedAt := none, deletedBy := none }

/-- C3 question of the cycle. -/
def c3Q : Question :=
  { id := "cq3", name := "Loop back?", required := false,
    min := none, max := none, questionType := .SINGLE_CHOICE,
    isActive := true, deletedAt := none, deletedBy := none }

/-- QUESTION edge cp3 → cq3. -/
def c3E1 : QuestionProduct :=
  { id := "h1", questionId := "cq3", productId := "cp3", position := 0,
    itemType := .QUESTION }

/-- ANSWER edge cq3 → cp3 closing the cycle. -/
def c3E2 : QuestionProduct :=
  { id := "h2", questionId := "cq3", productId := "cp3", position := 0,
    itemType := .ANSWER }

/-- The cyclic store. -/
def c3Store : Store :=
  { products := [c3P], questions := [c3Q],
    questionProducts := [c3E1, c3E2], tags := [] }

/-- Claim C3: on an acyclic graph (with resolvable foreign keys) the
recursive expansion terminates — some fuel suffices, namely one more than
the number of products — while on the concrete cyclic store no amount of
fuel makes it finish: there is no depth limit or cycle guard. -/
theorem C3_termination_iff_acyclic :
    (∀ (s : Store) (p : Product),
      (∀ qp ∈ s.questionProducts,
        qp.itemType = QuestionProductType.QUESTION →
          (lookupQuestion s qp.questionId).isSome) →
      (∀ qp ∈ s.questionProducts,
        qp.itemType = QuestionProductType.ANSWER →
          (lookupProduct s qp.productId).isSome) →
      acyclicQuestionGraph s →
      ∃ fuel, (expandQuestionsRecursively s fuel p).isSome) ∧
    (∀ fuel, expandQuestionsRecursively c3Store fuel c3P = none) := by
  constructor
  · intro s p hQ hA hacyc
    refine ⟨(s.products.map (fun x => x.id)).length + 1, ?_⟩
    refine expand_isSome_of_acyclic s hQ hA hacyc _
      (s.products.map (fun x => x.id)) p ?_ (by omega)
    intro c hc
    rcases transGen_last hc with ⟨b, hb⟩
    rcases hb with ⟨qp, aqp, _, _, _, hastore, _, hat, hcid⟩
    have := hA aqp hastore hat
    rcases Option.isSome_iff_exists.mp this with ⟨pp, hpp⟩
    have hppid : pp.id = aqp.productId := by
      simpa [beq_iff_eq] using List.find?_some hpp
    refine List.mem_map.mpr ⟨pp, List.mem_of_find?_eq_some hpp, ?_⟩
    rw [hppid, hcid]
  · intro fuel
    induction fuel with
    | zero => rfl
    | succ m ih =>
      rw [expand_succ]
      have hentry : expandEntry c3Store m c3E1 = none := by
        unfold expandEntry
        rw [show lookupQuestion c3Store c3E1.questionId = some c3Q from rfl,
          Option.some_bind]
        rw [show mapOption (fun a => lookupProduct c3Store a.productId)
            (answerRows c3Store c3Q.id) = some [c3P] from rfl,
          Option.some_bind]
        have hrec : mapOption
            (fun answer => expandQuestionsRecursively c3Store m answer)
            [c3P] = none := by
          simp only [mapOption, ih]
        rw [hrec]
        rfl
      rw [show questionRows c3Store c3P.id = [c3E1] from rfl]
      simp only [mapOption, hentry, Option.map_none']

/-- No alternating step exists in the C2 store (it has no ANSWER rows). -/
theorem c2Store_no_step (pid cid : String) : ¬ stepsTo c2Store pid cid := by
  rintro ⟨qp, aqp, _, _, _, haqp, _, hat, _⟩
  have : aqp = c2E := by
    simpa [c2Store] using haqp
  rw [this] at hat
  exact absurd hat (by decide)

/-- The C2 store is acyclic. -/
theorem c2Store_acyclic : acyclicQuestionGraph c2Store := by
  intro pid h
  rcases transGen_first h with ⟨b, hb⟩
  exact c2Store_no_step pid b hb

/-- Witness for C3 at the acyclic store c2Store: some fuel expands cp. -/
theorem C3_termination_iff_acyclic_witness :
    ∃ fuel, (expandQuestionsRecursively c2Store fuel c2P).isSome :=
  C3_termination_iff_acyclic.1 c2Store c2P (by decide) (by decide)
    c2Store_acyclic
